import Mathlib

/-!
Verification of the request-authentication and authorization core of the
`config-repo` repository (package `accesskey`: `signature.go`, `accesskey.go`).

The Go code is shallowly embedded:
* strings are Lean `String`s (byte-wise Go string ordering coincides with
  code-point lexicographic ordering, modelled by `lexLe` below);
* Go maps materialise as association lists (`List (k × v)`), with map reads
  returning the zero value `""` for absent keys, exactly as in Go;
* the MySQL-backed store is a pure in-memory value: `SELECT`s are total
  lookups on it (the store is initialised and reachable), while the
  `UPDATE access_keys SET last_used_at = ...` statement — the one
  side-effecting write in the verified code paths — carries an explicit
  success flag, because its failure behaviour is one of the spec's claims;
* the two cryptographic primitives (base64-encoded HMAC-SHA256 and
  base64-encoded SHA-256) are opaque function parameters `hmacSha256B64`
  and `sha256B64`: every theorem holds for every choice of these functions,
  and witnesses instantiate them with concrete computable functions;
* `fmt.Sprintf("%d", time.Now().Unix())` is an opaque ambient input: the
  rendered timestamp string is a parameter of the functions that use it.
-/

set_option maxHeartbeats 1000000

namespace AccessKey

/-! ## Go string primitives used by the source -/

/-- Go `strings.HasPrefix s pre`. -/
def hasPrefixB (s pre : String) : Bool := pre.data.isPrefixOf s.data

/-- Go `strings.HasSuffix s suf`. -/
def hasSuffixB (s suf : String) : Bool := suf.data.isSuffixOf s.data

/-- Go `strings.TrimSuffix s suf`: drops the suffix when present. -/
def trimSuffix (s suf : String) : String :=
  if hasSuffixB s suf then String.mk (s.data.take (s.data.length - suf.data.length)) else s

/-- Go `strings.ToUpper` (the source only compares ASCII method/action tokens). -/
def strToUpper (s : String) : String := String.mk (s.data.map Char.toUpper)

/-- Go `strings.ToLower` (the source only compares ASCII effect tokens). -/
def strToLower (s : String) : String := String.mk (s.data.map Char.toLower)

/-- Character comparison by code point (equals Go's byte-wise order on UTF-8). -/
def chLt (a b : Char) : Bool := decide (a.toNat < b.toNat)

/-- Lexicographic `≤` on character lists, Go's `<=` on strings. -/
def lexLe : List Char → List Char → Bool
  | [], _ => true
  | _ :: _, [] => false
  | a :: as, b :: bs => if a = b then lexLe as bs else chLt a b

/-- Go string `≤`, as used by `sort.Strings`. -/
def goStrLe (s t : String) : Bool := lexLe s.data t.data

/-- Relation form of `goStrLe`, a decidable relation for `List.insertionSort`. -/
def goLe (s t : String) : Prop := goStrLe s t = true

instance : DecidableRel goLe := fun a b => inferInstanceAs (Decidable (goStrLe a b = true))

/-- Go `sort.Strings`: sorts ascending in `goLe`. -/
def sortStrings (l : List String) : List String := List.insertionSort goLe l

/-! ## Data model (`accesskey.go`) -/

/-- Go struct `Permissions` from `accesskey.go`: one allow/deny rule. -/
structure Permissions where
  resources : List String
  actions : List String
  effect : String
deriving DecidableEq

/-! ## Path and permission matching (`signature.go`) -/

/-- Function `matchPathPattern` from `signature.go`: patterns ending in `/*` are
prefix matches after the `/*` is trimmed; all other patterns are exact. -/
def matchPathPattern (pattern path : String) : Bool :=
  if hasSuffixB pattern "/*" then
    hasPrefixB path (trimSuffix pattern "/*")
  else pattern == path

/-- One action token check from the `hasPermission` loop:
uppercased token equals uppercased method, or is the wildcard. -/
def actionAllowsMethod (method action : String) : Bool :=
  strToUpper action == strToUpper method || strToUpper action == "*"

/-- The rule scan inside `hasPermission`, with the two accumulator
variables `foundMatch` and `finalAllow` made explicit. -/
def hasPermissionLoop (method path : String) :
    List Permissions → Bool → Bool → Bool
  | [], foundMatch, finalAllow => foundMatch && finalAllow
  | perm :: rest, foundMatch, finalAllow =>
    let effect := strToLower perm.effect
    if effect != "allow" && effect != "deny" then
      hasPermissionLoop method path rest foundMatch finalAllow
    else if !(perm.actions.any (fun a => actionAllowsMethod method a)) then
      hasPermissionLoop method path rest foundMatch finalAllow
    else if perm.resources.any (fun r => matchPathPattern r path) then
      if effect == "deny" then false
      else hasPermissionLoop method path rest true true
    else
      hasPermissionLoop method path rest foundMatch finalAllow

/-- Function `hasPermission` from `signature.go` (nil and empty slices coincide in
the embedding: both are `[]`). -/
def hasPermission (perms : List Permissions) (method path : String) : Bool :=
  if perms.isEmpty then false
  else hasPermissionLoop method path perms false false

/-- Specification-shaped predicate: the rule is applicable to the request —
valid effect (case-insensitively `allow` or `deny`), some action token
matches the method, some resource pattern matches the path. -/
def ruleMatches (perm : Permissions) (method path : String) : Bool :=
  (strToLower perm.effect == "allow" || strToLower perm.effect == "deny")
    && perm.actions.any (fun a => actionAllowsMethod method a)
    && perm.resources.any (fun r => matchPathPattern r path)

/-! ## Signer (`signature.go`) -/

/-- Go struct `SignatureParams` from `signature.go`. Go's `map[string]string` fields
materialise as association lists; `Content` is a byte list. -/
structure SignatureParams where
  accessKeyID : String
  method : String
  path : String
  queryParams : List (String × String)
  headers : List (String × String)
  timestamp : String
  content : List Nat

/-- Go map read `m[k]` with the string zero value for absent keys. -/
def mapGet (m : List (String × String)) (k : String) : String :=
  match m.find? (fun kv => kv.1 == k) with
  | some kv => kv.2
  | none => ""

/-- Function `GenerateStringToSign` from `signature.go`: method, path, sorted
`key=value` query pairs joined by `&`, timestamp, and the base64 SHA-256
content hash (empty line for empty content), joined by newlines.
`params.headers` is carried but never used, as in the source. -/
def GenerateStringToSign (sha256B64 : List Nat → String) (params : SignatureParams) : String :=
  let queryKeys := sortStrings (params.queryParams.map Prod.fst)
  let queryParts := queryKeys.map (fun k => k ++ "=" ++ mapGet params.queryParams k)
  let contentLine := if 0 < params.content.length then sha256B64 params.content else ""
  String.intercalate "\n"
    [params.method, params.path, String.intercalate "&" queryParts, params.timestamp, contentLine]

/-- Function `GenerateSignature` from `accesskey.go`: base64-encoded HMAC-SHA256 of
the string to sign under the secret, with the primitive kept opaque. -/
def GenerateSignature (hmacSha256B64 : String → String → String)
    (accessKeySecret stringToSign : String) : String :=
  hmacSha256B64 accessKeySecret stringToSign

/-! ## HTTP requests -/

/-- An `http.Request` restricted to the attributes the source reads:
method, URL path, parsed URL query (`url.Values`, i.e. each key with its
list of values), headers, and the body bytes. -/
structure Request where
  method : String
  path : String
  query : List (String × List String)
  headers : List (String × String)
  body : List Nat
deriving DecidableEq

/-- Go `http.Header.Set`: replace any existing values of the key. -/
def headerSet (h : List (String × String)) (k v : String) : List (String × String) :=
  (k, v) :: h.filter (fun kv => kv.1 != k)

/-- Go `http.Header.Get`: first value of the key, `""` when absent. -/
def headerGet (h : List (String × String)) (k : String) : String :=
  match h.find? (fun kv => kv.1 == k) with
  | some kv => kv.2
  | none => ""

/-- The query-parameter extraction shared by `SignRequest` and
`VerifyRequestSignature`: for every key of `req.URL.Query()` with a
non-empty value list, keep only the first value. -/
def firstValues (q : List (String × List String)) : List (String × String) :=
  q.filterMap (fun kv => kv.2.head?.map (fun v => (kv.1, v)))

/-- The string to sign that `SignRequest` builds for a request: the
canonical string over the request's own method/path/query, the supplied
credential id, timestamp and content.  The headers handed to
`GenerateStringToSign` are the request headers after the first two
`Header.Set` calls (they are carried but unused, as in the source). -/
def signStringToSign (sha256B64 : List Nat → String) (req : Request)
    (accessKeyID timestamp : String) (content : List Nat) : String :=
  GenerateStringToSign sha256B64
    { accessKeyID := accessKeyID
      method := req.method
      path := req.path
      queryParams := firstValues req.query
      headers := headerSet (headerSet req.headers "X-Access-Key-ID" accessKeyID) "X-Timestamp" timestamp
      timestamp := timestamp
      content := content }

/-- Function `SignRequest` from `signature.go`: set `X-Access-Key-ID` and
`X-Timestamp`, build the canonical string, HMAC it under the secret and
set `X-Signature`.  The rendered Unix timestamp is the `timestamp`
parameter. -/
def SignRequest (hmacSha256B64 : String → String → String) (sha256B64 : List Nat → String)
    (req : Request) (accessKeyID accessKeySecret : String) (content : List Nat)
    (timestamp : String) : Request :=
  let withAuth := { req with
    headers := headerSet (headerSet req.headers "X-Access-Key-ID" accessKeyID) "X-Timestamp" timestamp }
  let signature := GenerateSignature hmacSha256B64 accessKeySecret
    (signStringToSign sha256B64 req accessKeyID timestamp content)
  { withAuth with headers := headerSet withAuth.headers "X-Signature" signature }

/-! ## Credential store (`accesskey.go`) -/

/-- One row of the `access_keys` table, with the JSON permission payload
already parsed into its structured form. -/
structure AccessKeyRec where
  accessKey : String
  secretKey : String
  status : String
  permissions : List Permissions
deriving DecidableEq

/-- The backing store: `access_keys` rows, the `roles ⋈ access_key_roles`
join rows (an access-key id together with that role's parsed permission
payload), and a flag telling whether the `UPDATE ... last_used_at`
statement succeeds. -/
structure Store where
  keys : List AccessKeyRec
  roleAssignments : List (String × List Permissions)
  updateLastUsedOk : Bool

/-- Function `ValidateAccessKey` from `accesskey.go`: `SELECT status` by access key
(no rows means `(false, nil)`), then `UPDATE ... last_used_at`; a failing
update makes the call return `(false, err)`; otherwise the result is
`status == "active"`. -/
def ValidateAccessKey (store : Store) (accessKeyID : String) : Except String Bool :=
  match store.keys.find? (fun r => r.accessKey == accessKeyID) with
  | none => .ok false
  | some r =>
    if store.updateLastUsedOk then .ok (r.status == "active")
    else .error "update last_used_at failed"

/-- Function `VerifySignature` from `accesskey.go`: `SELECT secret_key ... WHERE
access_key = ? AND status = 'active'` (no rows means `(false, nil)`),
recompute the signature under the stored secret and compare. -/
def VerifySignature (store : Store) (hmacSha256B64 : String → String → String)
    (accessKeyID stringToSign signature : String) : Except String Bool :=
  match store.keys.find? (fun r => r.accessKey == accessKeyID && r.status == "active") with
  | none => .ok false
  | some r => .ok (GenerateSignature hmacSha256B64 r.secretKey stringToSign == signature)

/-- Function `VerifyRequestSignature` from `signature.go`: error on a missing
`X-Access-Key-ID`, `X-Timestamp` or `X-Signature` header (checked in that
order; Go's `Header.Get` yields `""` for an absent header), then rebuild
the canonical string from the request's own attributes and call
`VerifySignature`. -/
def VerifyRequestSignature (store : Store) (hmacSha256B64 : String → String → String)
    (sha256B64 : List Nat → String) (req : Request) (content : List Nat) : Except String Bool :=
  let accessKeyID := headerGet req.headers "X-Access-Key-ID"
  if accessKeyID == "" then .error "missing X-Access-Key-ID header"
  else
    let timestamp := headerGet req.headers "X-Timestamp"
    if timestamp == "" then .error "missing X-Timestamp header"
    else
      let signature := headerGet req.headers "X-Signature"
      if signature == "" then .error "missing X-Signature header"
      else
        let params : SignatureParams :=
          { accessKeyID := accessKeyID
            method := req.method
            path := req.path
            queryParams := firstValues req.query
            headers := req.headers.filter (fun kv => kv.1 != "X-Signature")
            timestamp := timestamp
            content := content }
        VerifySignature store hmacSha256B64 accessKeyID
          (GenerateStringToSign sha256B64 params) signature

/-! ## Effective permissions (`accesskey.go`) -/

/-- Go `fmt.Sprintf("%v", slice)` for a string slice: elements joined by
single spaces inside brackets. -/
def fmtStrList (l : List String) : String := "[" ++ String.intercalate " " l ++ "]"

/-- The dedup key `fmt.Sprintf("%v-%v-%v", Resources, Actions, Effect)`
built by `GetAccessKeyPermissions`. -/
def permKey (p : Permissions) : String :=
  fmtStrList p.resources ++ "-" ++ fmtStrList p.actions ++ "-" ++ p.effect

/-- One `permMap[key] = perm` insertion: Go map write, replacing the entry
with this key if present, appending otherwise. -/
def permUnionStep (m : List (String × Permissions)) (p : Permissions) :
    List (String × Permissions) :=
  let k := permKey p
  if m.any (fun kv => kv.1 == k) then
    m.map (fun kv => if kv.1 == k then (k, p) else kv)
  else m ++ [(k, p)]

/-- The union-and-dedup computation of `GetAccessKeyPermissions`: insert
the key's own permissions, then every role's permissions, into the keyed
map, and return the map's values. -/
def effectivePermissions (keyPerms : List Permissions)
    (rolePerms : List (List Permissions)) : List Permissions :=
  let m := keyPerms.foldl permUnionStep []
  let m := rolePerms.foldl (fun acc ps => ps.foldl permUnionStep acc) m
  m.map Prod.snd

/-- The role-permission payloads the `roles ⋈ access_key_roles` query
returns for an access key. -/
def rolePermsFor (store : Store) (accessKeyID : String) : List (List Permissions) :=
  (store.roleAssignments.filter (fun a => a.1 == accessKeyID)).map Prod.snd

/-- Function `GetAccessKeyPermissions` from `accesskey.go`: `SELECT permissions` by
access key (no rows is an error here), join in every assigned role's
permissions, dedup by `permKey`. -/
def GetAccessKeyPermissions (store : Store) (accessKeyID : String) :
    Except String (List Permissions) :=
  match store.keys.find? (fun r => r.accessKey == accessKeyID) with
  | none => .error "sql: no rows in result set"
  | some r => .ok (effectivePermissions r.permissions (rolePermsFor store accessKeyID))

/-! ## Request gate (`CreateMiddleware` in `signature.go`) -/

/-- The externally observable outcome of one middleware invocation. -/
inductive GateOutcome where
  | rejected (code : Nat) (body : String)
  | forwarded (req : Request)
deriving DecidableEq

/-- Function `CreateMiddleware` from `signature.go`: read the body, re-sign the
request in place with the fixed credential `"14789"` / secret `"wen"`,
then verify the signature, validate the access key, resolve permissions
and evaluate the policy; forward to the protected handler only if all
checks pass. -/
def CreateMiddleware (hmacSha256B64 : String → String → String)
    (sha256B64 : List Nat → String) (store : Store) (req : Request)
    (timestamp : String) : GateOutcome :=
  let body := req.body
  let signed := SignRequest hmacSha256B64 sha256B64 req "14789" "wen" body timestamp
  match VerifyRequestSignature store hmacSha256B64 sha256B64 signed body with
  | .error _ => .rejected 401 "Invalid signature"
  | .ok false => .rejected 401 "Invalid signature"
  | .ok true =>
    let accessKeyID := headerGet signed.headers "X-Access-Key-ID"
    match ValidateAccessKey store accessKeyID with
    | .error _ => .rejected 401 "Invalid access key"
    | .ok false => .rejected 401 "Invalid access key"
    | .ok true =>
      match GetAccessKeyPermissions store accessKeyID with
      | .error _ => .rejected 500 "Error getting permissions"
      | .ok permissions =>
        if !hasPermission permissions signed.method signed.path then
          .rejected 403 "Insufficient permissions"
        else .forwarded signed

/-- The accept/reject decision of an outcome: HTTP status and response
body for rejections, `(200, "")` for a forwarded request. -/
def gateStatus : GateOutcome → Nat × String
  | .rejected code body => (code, body)
  | .forwarded _ => (200, "")

/-- Observation helper: the value of a header of the forwarded request,
`none` when the request was rejected. -/
def forwardedHeaderOf (o : GateOutcome) (k : String) : Option String :=
  match o with
  | .forwarded r => some (headerGet r.headers k)
  | .rejected _ _ => none

/-! ## Order facts about the Go string order -/

theorem char_toNat_inj {a b : Char} (h : a.toNat = b.toNat) : a = b :=
  Char.ext (UInt32.ext h)

theorem lexLe_total : ∀ as bs : List Char, lexLe as bs = true ∨ lexLe bs as = true := by
  intro as
  induction as with
  | nil => intro bs; exact Or.inl rfl
  | cons a as ih =>
    intro bs
    cases bs with
    | nil => exact Or.inr rfl
    | cons b bs =>
      by_cases hab : a = b
      · subst hab
        simpa [lexLe] using ih bs
      · have hn : a.toNat ≠ b.toNat := fun h => hab (char_toNat_inj h)
        rcases Nat.lt_or_ge a.toNat b.toNat with h | h
        · left; simp [lexLe, hab, chLt, h]
        · right
          have hba : b ≠ a := fun h => hab h.symm
          have : b.toNat < a.toNat := lt_of_le_of_ne h (fun h => hn h.symm)
          simp [lexLe, hba, chLt, this]

theorem lexLe_trans : ∀ as bs cs : List Char,
    lexLe as bs = true → lexLe bs cs = true → lexLe as cs = true := by
  intro as
  induction as with
  | nil => intro bs cs _ _; rfl
  | cons a as ih =>
    intro bs cs h1 h2
    cases bs with
    | nil => simp [lexLe] at h1
    | cons b bs =>
      cases cs with
      | nil => simp [lexLe] at h2
      | cons c cs =>
        by_cases hab : a = b <;> by_cases hbc : b = c
        · subst hab; subst hbc
          simp only [lexLe, if_pos rfl] at h1 h2 ⊢
          exact ih bs cs h1 h2
        · subst hab
          simp only [lexLe, if_pos rfl] at h1
          simpa [lexLe, hbc] using h2
        · subst hbc
          simpa [lexLe, hab] using h1
        · simp only [lexLe, if_neg hab] at h1
          simp only [lexLe, if_neg hbc] at h2
          simp only [chLt, decide_eq_true_eq] at h1 h2
          have hac : a.toNat < c.toNat := Nat.lt_trans h1 h2
          have hne : a ≠ c := fun h => by subst h; exact Nat.lt_irrefl _ (Nat.lt_trans h1 h2)
          simp [lexLe, hne, chLt, hac]

theorem lexLe_antisymm : ∀ as bs : List Char,
    lexLe as bs = true → lexLe bs as = true → as = bs := by
  intro as
  induction as with
  | nil =>
    intro bs _ h2
    cases bs with
    | nil => rfl
    | cons b bs => simp [lexLe] at h2
  | cons a as ih =>
    intro bs h1 h2
    cases bs with
    | nil => simp [lexLe] at h1
    | cons b bs =>
      by_cases hab : a = b
      · subst hab
        simp only [lexLe, if_pos rfl] at h1 h2
        rw [ih bs h1 h2]
      · have hba : b ≠ a := fun h => hab h.symm
        simp only [lexLe, if_neg hab, chLt, decide_eq_true_eq] at h1
        simp only [lexLe, if_neg hba, chLt, decide_eq_true_eq] at h2
        exact absurd h2 (Nat.not_lt.mpr (Nat.le_of_lt h1))

instance : IsTotal String goLe := ⟨fun a b => lexLe_total a.data b.data⟩

instance : IsTrans String goLe := ⟨fun a b c => lexLe_trans a.data b.data c.data⟩

instance : IsAntisymm String goLe := by
  refine ⟨fun a b h1 h2 => ?_⟩
  cases a; cases b
  exact congrArg String.mk (lexLe_antisymm _ _ h1 h2)

theorem sortStrings_sorted (l : List String) : List.Sorted goLe (sortStrings l) :=
  List.sorted_insertionSort goLe l

theorem sortStrings_perm (l : List String) : (sortStrings l).Perm l :=
  List.perm_insertionSort goLe l

/-- Permutations with the same elements sort to the same list. -/
theorem sortStrings_congr {l₁ l₂ : List String} (h : l₁.Perm l₂) :
    sortStrings l₁ = sortStrings l₂ :=
  List.eq_of_perm_of_sorted
    (((sortStrings_perm l₁).trans h).trans (sortStrings_perm l₂).symm)
    (sortStrings_sorted l₁) (sortStrings_sorted l₂)

/-! ## Association-list facts -/

theorem any_congr_perm {α : Type} {l₁ l₂ : List α} (h : l₁.Perm l₂) (f : α → Bool) :
    l₁.any f = l₂.any f := by
  apply Bool.eq_iff_iff.mpr
  simp only [List.any_eq_true]
  exact ⟨fun ⟨x, hx, hf⟩ => ⟨x, h.mem_iff.mp hx, hf⟩,
    fun ⟨x, hx, hf⟩ => ⟨x, h.mem_iff.mpr hx, hf⟩⟩

/-- Looking a key up in an association list with duplicate-free keys is
invariant under permutation. -/
theorem mapGet_congr_perm (k : String) :
    ∀ {l₁ l₂ : List (String × String)}, l₁.Perm l₂ →
      (l₁.map Prod.fst).Nodup → mapGet l₁ k = mapGet l₂ k := by
  intro l₁ l₂ h
  induction h with
  | nil => intro _; rfl
  | cons x _ ih =>
    intro hnd
    simp only [List.map_cons, List.nodup_cons] at hnd
    by_cases hx : x.1 == k
    · simp [mapGet, List.find?_cons, hx]
    · simp only [mapGet, List.find?_cons, hx]
      exact ih hnd.2
  | swap x y l =>
    intro hnd
    simp only [List.map_cons, List.nodup_cons, List.mem_cons] at hnd
    have hxy : ¬(y.1 = x.1) := fun h => hnd.1 (Or.inl h)
    by_cases hx : x.1 == k <;> by_cases hy : y.1 == k
    · exact absurd ((eq_of_beq hy).trans (eq_of_beq hx).symm) hxy
    · simp [mapGet, List.find?_cons, hx, hy]
    · simp [mapGet, List.find?_cons, hx, hy]
    · simp [mapGet, List.find?_cons, hx, hy]
  | trans h₁ h₂ ih₁ ih₂ =>
    intro hnd
    refine (ih₁ hnd).trans (ih₂ ?_)
    exact (h₁.map Prod.fst).nodup_iff.mp hnd

/-! ## Header map facts -/

theorem headerGet_set_same (h : List (String × String)) (k v : String) :
    headerGet (headerSet h k v) k = v := by
  simp [headerGet, headerSet, List.find?_cons]

theorem find?_filter_ne (k k' : String) (h : List (String × String)) (hne : k' ≠ k) :
    (h.filter (fun kv => kv.1 != k)).find? (fun kv => kv.1 == k') =
      h.find? (fun kv => kv.1 == k') := by
  induction h with
  | nil => rfl
  | cons x t ih =>
    by_cases hk : (x.1 != k) = true
    · rw [List.filter_cons, if_pos hk]
      by_cases hx : (x.1 == k') = true
      · rw [@List.find?_cons_of_pos _ (fun kv => kv.1 == k') x _ hx,
          @List.find?_cons_of_pos _ (fun kv => kv.1 == k') x _ hx]
      · rw [@List.find?_cons_of_neg _ (fun kv => kv.1 == k') x _ hx,
          @List.find?_cons_of_neg _ (fun kv => kv.1 == k') x _ hx]
        exact ih
    · have hxk : x.1 = k := by simpa [bne_iff_ne] using hk
      have hx : ¬((x.1 == k') = true) := by
        simp only [beq_iff_eq, hxk]
        exact fun h => hne h.symm
      rw [List.filter_cons, if_neg hk,
        @List.find?_cons_of_neg _ (fun kv => kv.1 == k') x _ hx]
      exact ih

theorem headerGet_set_other (h : List (String × String)) (k v k' : String) (hne : k' ≠ k) :
    headerGet (headerSet h k v) k' = headerGet h k' := by
  have hk : (k == k') = false := by
    simp only [beq_eq_false_iff_ne, ne_eq]
    exact fun heq => hne heq.symm
  simp only [headerGet, headerSet, List.find?_cons, hk]
  rw [find?_filter_ne k k' h hne]

/-! ## Characterisation of the policy evaluator -/

theorem hasPermissionLoop_eq (method path : String) :
    ∀ (perms : List Permissions) (b : Bool),
      hasPermissionLoop method path perms b b =
        ((!(perms.any fun p => ruleMatches p method path && (strToLower p.effect == "deny")))
          && (b || perms.any fun p => ruleMatches p method path)) := by
  intro perms
  induction perms with
  | nil => intro b; cases b <;> simp [hasPermissionLoop]
  | cons p rest ih =>
    intro b
    cases hA : (strToLower p.effect == "allow") <;>
      cases hD : (strToLower p.effect == "deny") <;>
        cases hAct : (p.actions.any fun a => actionAllowsMethod method a) <;>
          cases hRes : (p.resources.any fun r => matchPathPattern r path) <;>
            simp only [hasPermissionLoop, List.any_cons, ruleMatches, hA, hD, hAct, hRes,
              bne, Bool.not_false, Bool.not_true, Bool.and_true, Bool.and_false,
              Bool.true_and, Bool.false_and, Bool.or_true, Bool.or_false, Bool.true_or,
              Bool.false_or, Bool.and_self, ite_true, ite_false, ih] <;> rfl

theorem hasPermission_eq (perms : List Permissions) (method path : String) :
    hasPermission perms method path =
      ((!(perms.any fun p => ruleMatches p method path && (strToLower p.effect == "deny")))
        && perms.any fun p => ruleMatches p method path) := by
  cases perms with
  | nil => rfl
  | cons p rest =>
    simpa [hasPermission] using hasPermissionLoop_eq method path (p :: rest) false

/-- C2: `hasPermission` returns true iff some rule matches (valid effect,
action token matching the method case-insensitively or `"*"`, resource
pattern matching the path) and no matching rule is a deny; the empty list
evaluates to false, and the decision is invariant under reordering of the
rule list (so a matching deny forces false in any order). -/
theorem evaluate_policy_characterisation :
    ∀ (perms : List Permissions) (method path : String),
      (hasPermission perms method path = true ↔
        ((∃ p ∈ perms, ruleMatches p method path = true) ∧
          ∀ p ∈ perms, ruleMatches p method path = true → ¬(strToLower p.effect = "deny")))
      ∧ hasPermission [] method path = false
      ∧ ∀ perms₂, perms.Perm perms₂ →
          hasPermission perms method path = hasPermission perms₂ method path := by
  intro perms method path
  refine ⟨?_, rfl, ?_⟩
  · rw [hasPermission_eq]
    simp only [Bool.and_eq_true, Bool.not_eq_true', List.any_eq_false, List.any_eq_true,
      Bool.and_eq_true, beq_iff_eq, not_and]
    constructor
    · rintro ⟨hnone, hsome⟩
      exact ⟨hsome, fun p hp hm => hnone p hp hm⟩
    · rintro ⟨hsome, hnone⟩
      exact ⟨fun p hp hm => hnone p hp hm, hsome⟩
  · intro perms₂ hp
    rw [hasPermission_eq, hasPermission_eq, any_congr_perm hp, any_congr_perm hp]

def allowRuleW : Permissions := ⟨["a"], ["GET"], "allow"⟩

def denyRuleW : Permissions := ⟨["a"], ["GET"], "deny"⟩

theorem evaluate_policy_characterisation_witness :
    hasPermission [allowRuleW, denyRuleW] "GET" "a"
        = hasPermission [denyRuleW, allowRuleW] "GET" "a"
      ∧ hasPermission [allowRuleW, denyRuleW] "GET" "a" = false :=
  ⟨(evaluate_policy_characterisation [allowRuleW, denyRuleW] "GET" "a").2.2
      [denyRuleW, allowRuleW] (List.Perm.swap denyRuleW allowRuleW []),
    by decide⟩

/-! ## Path pattern matching (claim C4) -/

/-- C4 counterexample: the claim says `"api/v1/users/*"` does **not** match
`"api/v1/usersx"`, but `matchPathPattern` strips the trailing `/*` leaving
the prefix `"api/v1/users"`, which is a string prefix of `"api/v1/usersx"`,
so the code matches it. -/
theorem path_pattern_usersx_counterexample :
    matchPathPattern "api/v1/users/*" "api/v1/usersx" = true := by decide

/-- C4 amended: `"api/v1/users/*"` matches `"api/v1/users/123"`,
`"api/v1/users/123/roles"` **and** `"api/v1/usersx"` (the trailing `/*` is
stripped and the remainder compared as a plain string prefix, so the
separator is not required); patterns not ending in `/*` require exact
equality. -/
theorem path_pattern_prefix_behaviour :
    matchPathPattern "api/v1/users/*" "api/v1/users/123" = true
      ∧ matchPathPattern "api/v1/users/*" "api/v1/users/123/roles" = true
      ∧ matchPathPattern "api/v1/users/*" "api/v1/usersx" = true
      ∧ matchPathPattern "api/v1/users" "api/v1/usersx" = false
      ∧ matchPathPattern "api/v1/users" "api/v1/users" = true := by decide

/-! ## Canonical string construction (claims C9, C10) -/

/-- C9: the canonical string does not depend on the order in which the
query-parameter mapping is materialised: two parameter lists holding the
same key/value pairs (a permutation, with no duplicate keys, as in a Go
map) produce identical canonical strings, because the keys are sorted
before rendering. -/
theorem canonical_string_query_order_independent :
    ∀ (sha256B64 : List Nat → String) (accessKeyID method path timestamp : String)
      (headers : List (String × String)) (content : List Nat)
      (qp₁ qp₂ : List (String × String)),
      qp₁.Perm qp₂ → (qp₁.map Prod.fst).Nodup →
      GenerateStringToSign sha256B64
          { accessKeyID := accessKeyID, method := method, path := path,
            queryParams := qp₁, headers := headers, timestamp := timestamp, content := content }
        = GenerateStringToSign sha256B64
          { accessKeyID := accessKeyID, method := method, path := path,
            queryParams := qp₂, headers := headers, timestamp := timestamp, content := content } := by
  intro sha accessKeyID method path timestamp headers content qp₁ qp₂ hperm hnd
  have hkeys : sortStrings (qp₁.map Prod.fst) = sortStrings (qp₂.map Prod.fst) :=
    sortStrings_congr (hperm.map Prod.fst)
  have hget : ∀ k, mapGet qp₁ k = mapGet qp₂ k := fun k => mapGet_congr_perm k hperm hnd
  have hparts : (sortStrings (qp₂.map Prod.fst)).map (fun k => k ++ "=" ++ mapGet qp₁ k)
      = (sortStrings (qp₂.map Prod.fst)).map (fun k => k ++ "=" ++ mapGet qp₂ k) :=
    List.map_congr_left (fun k _ => by rw [hget k])
  simp only [GenerateStringToSign, hkeys, hparts]

def shaW : List Nat → String := fun _ => "hash"

theorem canonical_string_query_order_independent_witness :
    GenerateStringToSign shaW
        { accessKeyID := "k", method := "GET", path := "/p",
          queryParams := [("a", "1"), ("b", "2")], headers := [], timestamp := "10", content := [] }
      = GenerateStringToSign shaW
        { accessKeyID := "k", method := "GET", path := "/p",
          queryParams := [("b", "2"), ("a", "1")], headers := [], timestamp := "10", content := [] } :=
  canonical_string_query_order_independent shaW "k" "GET" "/p" "10" [] []
    [("a", "1"), ("b", "2")] [("b", "2"), ("a", "1")]
    (List.Perm.swap ("b", "2") ("a", "1") []) (by decide)

theorem firstValues_eq_of_heads_eq {q₁ q₂ : List (String × List String)}
    (h : q₁.map (fun kv => (kv.1, kv.2.head?)) = q₂.map (fun kv => (kv.1, kv.2.head?))) :
    firstValues q₁ = firstValues q₂ := by
  have h₁ : firstValues q₁ =
      (q₁.map (fun kv => (kv.1, kv.2.head?))).filterMap
        (fun kv => kv.2.map (fun v => (kv.1, v))) := by
    rw [List.filterMap_map]; rfl
  have h₂ : firstValues q₂ =
      (q₂.map (fun kv => (kv.1, kv.2.head?))).filterMap
        (fun kv => kv.2.map (fun v => (kv.1, v))) := by
    rw [List.filterMap_map]; rfl
  rw [h₁, h₂, h]

/-- C10: both signing and verification keep only the first value of each
query parameter, so two requests that agree on method, path, headers and
body and whose query parameters have identical keys and identical *first*
values (later values free) get the same canonical string, the same
`X-Signature` value from `SignRequest`, and the same verification result. -/
theorem repeated_query_values_first_only :
    ∀ (hmacSha256B64 : String → String → String) (sha256B64 : List Nat → String)
      (store : Store) (req₁ req₂ : Request)
      (accessKeyID accessKeySecret timestamp : String) (content : List Nat),
      req₁.method = req₂.method → req₁.path = req₂.path → req₁.headers = req₂.headers →
      req₁.body = req₂.body →
      req₁.query.map (fun kv => (kv.1, kv.2.head?))
        = req₂.query.map (fun kv => (kv.1, kv.2.head?)) →
      signStringToSign sha256B64 req₁ accessKeyID timestamp content
          = signStringToSign sha256B64 req₂ accessKeyID timestamp content
        ∧ headerGet (SignRequest hmacSha256B64 sha256B64 req₁ accessKeyID accessKeySecret
              content timestamp).headers "X-Signature"
          = headerGet (SignRequest hmacSha256B64 sha256B64 req₂ accessKeyID accessKeySecret
              content timestamp).headers "X-Signature"
        ∧ VerifyRequestSignature store hmacSha256B64 sha256B64 req₁ content
          = VerifyRequestSignature store hmacSha256B64 sha256B64 req₂ content := by
  intro hmac sha store req₁ req₂ id secret ts content hm hp hh hb hq
  have hfv : firstValues req₁.query = firstValues req₂.query := firstValues_eq_of_heads_eq hq
  have hsts : signStringToSign sha req₁ id ts content
      = signStringToSign sha req₂ id ts content := by
    simp only [signStringToSign, GenerateStringToSign, hm, hp, hfv]
  refine ⟨hsts, ?_, ?_⟩
  · simp only [SignRequest, GenerateSignature, headerGet_set_same, hsts]
  · simp only [VerifyRequestSignature, GenerateStringToSign, hh, hm, hp, hfv]

/-! ## Signing then verifying (claim C3) -/

theorem signed_headers_accessKeyID (hmac : String → String → String)
    (sha : List Nat → String) (req : Request) (id secret : String)
    (content : List Nat) (ts : String) :
    headerGet (SignRequest hmac sha req id secret content ts).headers "X-Access-Key-ID" = id := by
  show headerGet (headerSet (headerSet (headerSet req.headers "X-Access-Key-ID" id)
    "X-Timestamp" ts) "X-Signature"
      (GenerateSignature hmac secret (signStringToSign sha req id ts content)))
    "X-Access-Key-ID" = id
  rw [headerGet_set_other _ _ _ _ (by decide), headerGet_set_other _ _ _ _ (by decide),
    headerGet_set_same]

theorem signed_headers_timestamp (hmac : String → String → String)
    (sha : List Nat → String) (req : Request) (id secret : String)
    (content : List Nat) (ts : String) :
    headerGet (SignRequest hmac sha req id secret content ts).headers "X-Timestamp" = ts := by
  show headerGet (headerSet (headerSet (headerSet req.headers "X-Access-Key-ID" id)
    "X-Timestamp" ts) "X-Signature"
      (GenerateSignature hmac secret (signStringToSign sha req id ts content)))
    "X-Timestamp" = ts
  rw [headerGet_set_other _ _ _ _ (by decide), headerGet_set_same]

theorem signed_headers_signature (hmac : String → String → String)
    (sha : List Nat → String) (req : Request) (id secret : String)
    (content : List Nat) (ts : String) :
    headerGet (SignRequest hmac sha req id secret content ts).headers "X-Signature"
      = GenerateSignature hmac secret (signStringToSign sha req id ts content) := by
  show headerGet (headerSet (headerSet (headerSet req.headers "X-Access-Key-ID" id)
    "X-Timestamp" ts) "X-Signature"
      (GenerateSignature hmac secret (signStringToSign sha req id ts content)))
    "X-Signature" = GenerateSignature hmac secret (signStringToSign sha req id ts content)
  rw [headerGet_set_same]

theorem SignRequest_method (hmac : String → String → String) (sha : List Nat → String)
    (req : Request) (id secret : String) (content : List Nat) (ts : String) :
    (SignRequest hmac sha req id secret content ts).method = req.method := rfl

theorem SignRequest_path (hmac : String → String → String) (sha : List Nat → String)
    (req : Request) (id secret : String) (content : List Nat) (ts : String) :
    (SignRequest hmac sha req id secret content ts).path = req.path := rfl

theorem SignRequest_query (hmac : String → String → String) (sha : List Nat → String)
    (req : Request) (id secret : String) (content : List Nat) (ts : String) :
    (SignRequest hmac sha req id secret content ts).query = req.query := rfl

theorem SignRequest_body (hmac : String → String → String) (sha : List Nat → String)
    (req : Request) (id secret : String) (content : List Nat) (ts : String) :
    (SignRequest hmac sha req id secret content ts).body = req.body := rfl

/-- Verifying a request produced by `SignRequest` reduces to
`VerifySignature` on the very canonical string that was signed. -/
theorem verify_of_signed (hmac : String → String → String) (sha : List Nat → String)
    (store : Store) (req : Request) (id secret : String) (content : List Nat) (ts : String)
    (hid : id ≠ "") (hts : ts ≠ "")
    (hsig : GenerateSignature hmac secret (signStringToSign sha req id ts content) ≠ "") :
    VerifyRequestSignature store hmac sha
        (SignRequest hmac sha req id secret content ts) content
      = VerifySignature store hmac id (signStringToSign sha req id ts content)
          (GenerateSignature hmac secret (signStringToSign sha req id ts content)) := by
  have hid' : (id == "") = false := beq_eq_false_iff_ne.mpr hid
  have hts' : (ts == "") = false := beq_eq_false_iff_ne.mpr hts
  have hsig' : (GenerateSignature hmac secret (signStringToSign sha req id ts content) == "")
      = false := beq_eq_false_iff_ne.mpr hsig
  simp only [VerifyRequestSignature, signed_headers_accessKeyID, signed_headers_timestamp,
    signed_headers_signature, hid', hts', hsig', Bool.false_eq_true, if_false]
  simp only [signStringToSign, GenerateStringToSign, SignRequest_method, SignRequest_path,
    SignRequest_query]

/-- C3: with the claimed credential stored and active, verifying a request
signed with the stored secret returns true; verifying the same request
signed with any other secret — any secret whose HMAC digest of the
canonical string differs — returns false.  The non-emptiness side
conditions reflect that real credential ids, rendered Unix timestamps and
base64 digests are never the empty string. -/
theorem sign_verify_roundtrip :
    ∀ (hmacSha256B64 : String → String → String) (sha256B64 : List Nat → String)
      (store : Store) (req : Request) (rec : AccessKeyRec)
      (accessKeyID accessKeySecret otherSecret timestamp : String) (content : List Nat),
      store.keys.find? (fun r => r.accessKey == accessKeyID && r.status == "active")
          = some rec →
      rec.secretKey = accessKeySecret →
      accessKeyID ≠ "" → timestamp ≠ "" →
      GenerateSignature hmacSha256B64 accessKeySecret
          (signStringToSign sha256B64 req accessKeyID timestamp content) ≠ "" →
      GenerateSignature hmacSha256B64 otherSecret
          (signStringToSign sha256B64 req accessKeyID timestamp content) ≠ "" →
      GenerateSignature hmacSha256B64 otherSecret
          (signStringToSign sha256B64 req accessKeyID timestamp content)
        ≠ GenerateSignature hmacSha256B64 accessKeySecret
          (signStringToSign sha256B64 req accessKeyID timestamp content) →
      VerifyRequestSignature store hmacSha256B64 sha256B64
          (SignRequest hmacSha256B64 sha256B64 req accessKeyID accessKeySecret content timestamp)
          content = .ok true
      ∧ VerifyRequestSignature store hmacSha256B64 sha256B64
          (SignRequest hmacSha256B64 sha256B64 req accessKeyID otherSecret content timestamp)
          content = .ok false := by
  intro hmac sha store req rec id secret other ts content hfind hsec hid hts hsig hsig2 hne
  constructor
  · rw [verify_of_signed hmac sha store req id secret content ts hid hts hsig]
    simp [VerifySignature, hfind, hsec]
  · rw [verify_of_signed hmac sha store req id other content ts hid hts hsig2]
    have hbeq : (GenerateSignature hmac secret (signStringToSign sha req id ts content)
        == GenerateSignature hmac other (signStringToSign sha req id ts content)) = false :=
      beq_eq_false_iff_ne.mpr (fun h => hne h.symm)
    simp [VerifySignature, hfind, hsec, hbeq]

def hmacW : String → String → String := fun k m => k ++ ":" ++ m

def reqW : Request := { method := "GET", path := "/p", query := [], headers := [], body := [] }

def recW : AccessKeyRec :=
  { accessKey := "id1", secretKey := "sek", status := "active", permissions := [] }

def storeW : Store := { keys := [recW], roleAssignments := [], updateLastUsedOk := true }

theorem sign_verify_roundtrip_witness :
    VerifyRequestSignature storeW hmacW shaW
        (SignRequest hmacW shaW reqW "id1" "sek" [] "1") [] = .ok true
      ∧ VerifyRequestSignature storeW hmacW shaW
        (SignRequest hmacW shaW reqW "id1" "bad" [] "1") [] = .ok false :=
  sign_verify_roundtrip hmacW shaW storeW reqW recW "id1" "sek" "bad" "1" []
    rfl rfl (by decide) (by decide) (by decide) (by decide) (by decide)

def reqQ1 : Request :=
  { method := "GET", path := "/p", query := [("a", ["1", "2"])], headers := [], body := [] }

def reqQ2 : Request :=
  { method := "GET", path := "/p", query := [("a", ["1", "3"])], headers := [], body := [] }

theorem repeated_query_values_first_only_witness :
    signStringToSign shaW reqQ1 "id1" "1" [] = signStringToSign shaW reqQ2 "id1" "1" []
      ∧ VerifyRequestSignature storeW hmacW shaW reqQ1 []
        = VerifyRequestSignature storeW hmacW shaW reqQ2 [] :=
  ⟨(repeated_query_values_first_only hmacW shaW storeW reqQ1 reqQ2 "id1" "sek" "1" []
      rfl rfl rfl rfl rfl).1,
    (repeated_query_values_first_only hmacW shaW storeW reqQ1 reqQ2 "id1" "sek" "1" []
      rfl rfl rfl rfl rfl).2.2⟩

/-! ## Error behaviour of verification (claim C8) -/

/-- C8: `VerifyRequestSignature` returns an explicit error exactly when one
of the three required transport headers — credential id, timestamp or
signature — is missing (Go's `Header.Get` yields `""` then); when all are
present but no stored row matches the claimed id with active status
(unknown id, or status not `"active"`), it returns `.ok false`, not an
error.  The backing store itself is modelled as initialised and
reachable. -/
theorem verify_error_exactly_on_missing_fields :
    ∀ (store : Store) (hmacSha256B64 : String → String → String)
      (sha256B64 : List Nat → String) (req : Request) (content : List Nat),
      ((∃ e, VerifyRequestSignature store hmacSha256B64 sha256B64 req content = .error e) ↔
        (headerGet req.headers "X-Access-Key-ID" = "" ∨
          headerGet req.headers "X-Timestamp" = "" ∨
          headerGet req.headers "X-Signature" = ""))
      ∧ ((∀ r ∈ store.keys, ¬(r.accessKey = headerGet req.headers "X-Access-Key-ID"
            ∧ r.status = "active")) →
          headerGet req.headers "X-Access-Key-ID" ≠ "" →
          headerGet req.headers "X-Timestamp" ≠ "" →
          headerGet req.headers "X-Signature" ≠ "" →
          VerifyRequestSignature store hmacSha256B64 sha256B64 req content = .ok false) := by
  intro store hmac sha req content
  by_cases h1 : headerGet req.headers "X-Access-Key-ID" = ""
  · have hres : VerifyRequestSignature store hmac sha req content
        = .error "missing X-Access-Key-ID header" := by
      simp [VerifyRequestSignature, h1]
    rw [hres]
    exact ⟨⟨fun _ => Or.inl h1, fun _ => ⟨_, rfl⟩⟩, fun _ hid _ _ => absurd h1 hid⟩
  · by_cases h2 : headerGet req.headers "X-Timestamp" = ""
    · have hres : VerifyRequestSignature store hmac sha req content
          = .error "missing X-Timestamp header" := by
        simp [VerifyRequestSignature, h1, h2]
      rw [hres]
      exact ⟨⟨fun _ => Or.inr (Or.inl h2), fun _ => ⟨_, rfl⟩⟩, fun _ _ hts _ => absurd h2 hts⟩
    · by_cases h3 : headerGet req.headers "X-Signature" = ""
      · have hres : VerifyRequestSignature store hmac sha req content
            = .error "missing X-Signature header" := by
          simp [VerifyRequestSignature, h1, h2, h3]
        rw [hres]
        exact ⟨⟨fun _ => Or.inr (Or.inr h3), fun _ => ⟨_, rfl⟩⟩, fun _ _ _ hs => absurd h3 hs⟩
      · have hres : VerifyRequestSignature store hmac sha req content
            = VerifySignature store hmac (headerGet req.headers "X-Access-Key-ID")
                (GenerateStringToSign sha
                  { accessKeyID := headerGet req.headers "X-Access-Key-ID"
                    method := req.method
                    path := req.path
                    queryParams := firstValues req.query
                    headers := req.headers.filter (fun kv => kv.1 != "X-Signature")
                    timestamp := headerGet req.headers "X-Timestamp"
                    content := content })
                (headerGet req.headers "X-Signature") := by
          simp [VerifyRequestSignature, h1, h2, h3]
        rw [hres]
        constructor
        · constructor
          · rintro ⟨e, he⟩
            exfalso
            unfold VerifySignature at he
            cases hfind : store.keys.find?
                (fun r => r.accessKey == headerGet req.headers "X-Access-Key-ID"
                  && r.status == "active") with
            | none => rw [hfind] at he; exact Except.noConfusion he
            | some r => rw [hfind] at he; exact Except.noConfusion he
          · rintro (h | h | h)
            · exact absurd h h1
            · exact absurd h h2
            · exact absurd h h3
        · intro hno _ _ _
          have hfind : store.keys.find?
              (fun r => r.accessKey == headerGet req.headers "X-Access-Key-ID"
                && r.status == "active") = none := by
            rw [List.find?_eq_none]
            intro r hr
            simp only [Bool.and_eq_true, beq_iff_eq, not_and]
            intro ha hs
            exact hno r hr ⟨ha, hs⟩
          simp [VerifySignature, hfind]

def reqMissingW : Request :=
  { method := "GET", path := "/p", query := [], headers := [("X-Timestamp", "1")], body := [] }

theorem verify_error_exactly_on_missing_fields_witness :
    (∃ e, VerifyRequestSignature storeW hmacW shaW reqMissingW [] = .error e) :=
  (verify_error_exactly_on_missing_fields storeW hmacW shaW reqMissingW []).1.mpr
    (Or.inl (by decide))

/-! ## Credential validation and the lastUsedAt update (claim C5) -/

def storeC5 : Store :=
  { keys := [{ accessKey := "k", secretKey := "s", status := "active", permissions := [] }],
    roleAssignments := [], updateLastUsedOk := false }

/-- C5 counterexample: the record for `"k"` exists with active status, yet
when the `last_used_at` update fails `ValidateAccessKey` does not return
the boolean `status == active` — it returns `(false, err)`, so the claim
that an update failure never causes an error or `false` is false on the
code. -/
theorem validate_access_key_claim_counterexample :
    (storeC5.keys.find? (fun r => r.accessKey == "k")).map (fun r => r.status)
        = some "active"
      ∧ storeC5.updateLastUsedOk = false
      ∧ ValidateAccessKey storeC5 "k" = .error "update last_used_at failed" :=
  ⟨rfl, rfl, rfl⟩

/-- C5 amended: when the record exists, `ValidateAccessKey` returns
`status == "active"` only if the `last_used_at` update succeeds; when the
update fails it propagates the failure (`(false, err)` in Go), which makes
the Request Gate reject the request; an unknown id still yields
`.ok false`. -/
theorem validate_access_key_update_behaviour :
    ∀ (store : Store) (accessKeyID : String),
      (∀ rec, store.keys.find? (fun r => r.accessKey == accessKeyID) = some rec →
        ValidateAccessKey store accessKeyID =
          (if store.updateLastUsedOk then .ok (rec.status == "active")
            else .error "update last_used_at failed"))
      ∧ (store.keys.find? (fun r => r.accessKey == accessKeyID) = none →
          ValidateAccessKey store accessKeyID = .ok false) := by
  intro store accessKeyID
  constructor
  · intro rec hfind
    simp [ValidateAccessKey, hfind]
  · intro hfind
    simp [ValidateAccessKey, hfind]

theorem validate_access_key_update_behaviour_witness :
    ValidateAccessKey storeC5 "k" = .error "update last_used_at failed" := by
  have h := (validate_access_key_update_behaviour storeC5 "k").1
    { accessKey := "k", secretKey := "s", status := "active", permissions := [] } rfl
  simpa using h

/-! ## Effective permission set (claim C7) -/

/-- Invariant of the dedup map built by `GetAccessKeyPermissions`: every
entry pairs a permission with its `permKey`, keys are duplicate-free,
every stored permission was inserted, and every inserted permission's key
is present. -/
def goodMap (m : List (String × Permissions)) (src : List Permissions) : Prop :=
  (m.map Prod.fst).Nodup
    ∧ (∀ kv ∈ m, kv.1 = permKey kv.2 ∧ kv.2 ∈ src)
    ∧ (∀ p ∈ src, ∃ kv ∈ m, kv.1 = permKey p)

theorem goodMap_step {m : List (String × Permissions)} {src : List Permissions}
    (h : goodMap m src) (p : Permissions) :
    goodMap (permUnionStep m p) (src ++ [p]) := by
  obtain ⟨hnd, hval, hcov⟩ := h
  by_cases hmem : m.any (fun kv => kv.1 == permKey p) = true
  · have hstep : permUnionStep m p
        = m.map (fun kv => if kv.1 == permKey p then (permKey p, p) else kv) := by
      simp [permUnionStep, hmem]
    rw [hstep]
    have hkeys : (m.map (fun kv => if kv.1 == permKey p then (permKey p, p) else kv)).map
        Prod.fst = m.map Prod.fst := by
      rw [List.map_map]
      apply List.map_congr_left
      intro kv _
      simp only [Function.comp_apply]
      by_cases hk : (kv.1 == permKey p) = true
      · rw [if_pos hk]
        exact (eq_of_beq hk).symm
      · rw [if_neg hk]
    refine ⟨by rw [hkeys]; exact hnd, ?_, ?_⟩
    · intro kv hkv
      rw [List.mem_map] at hkv
      obtain ⟨kv₀, hkv₀, heq⟩ := hkv
      by_cases hk : (kv₀.1 == permKey p) = true
      · rw [if_pos hk] at heq
        rw [← heq]
        exact ⟨rfl, List.mem_append_right _ (List.mem_singleton_self p)⟩
      · rw [if_neg hk] at heq
        rw [← heq]
        exact ⟨(hval kv₀ hkv₀).1, List.mem_append_left _ (hval kv₀ hkv₀).2⟩
    · intro q hq
      rcases List.mem_append.mp hq with hq | hq
      · obtain ⟨kv, hkv, hkey⟩ := hcov q hq
        refine ⟨if kv.1 == permKey p then (permKey p, p) else kv,
          List.mem_map_of_mem _ hkv, ?_⟩
        by_cases hk : (kv.1 == permKey p) = true
        · rw [if_pos hk]
          show permKey p = permKey q
          rw [← eq_of_beq hk]
          exact hkey
        · rw [if_neg hk]
          exact hkey
      · rw [List.mem_singleton] at hq
        rw [List.any_eq_true] at hmem
        obtain ⟨kv, hkv, hk⟩ := hmem
        refine ⟨(permKey p, p), List.mem_map.mpr ⟨kv, hkv, ?_⟩, by rw [hq]⟩
        rw [if_pos hk]
  · have hstep : permUnionStep m p = m ++ [(permKey p, p)] := by
      simp only [permUnionStep]
      rw [if_neg hmem]
    rw [hstep]
    refine ⟨?_, ?_, ?_⟩
    · rw [List.map_append]
      refine List.Nodup.append hnd (List.nodup_singleton _) ?_
      intro a ha hb
      rw [List.map_singleton, List.mem_singleton] at hb
      subst hb
      rw [List.mem_map] at ha
      obtain ⟨kv, hkv, hk⟩ := ha
      have : m.any (fun kv => kv.1 == permKey p) = true :=
        List.any_eq_true.mpr ⟨kv, hkv, beq_iff_eq.mpr hk⟩
      exact hmem this
    · intro kv hkv
      rcases List.mem_append.mp hkv with hkv | hkv
      · exact ⟨(hval kv hkv).1, List.mem_append_left _ (hval kv hkv).2⟩
      · rw [List.mem_singleton] at hkv
        subst hkv
        exact ⟨rfl, List.mem_append_right _ (List.mem_singleton_self p)⟩
    · intro q hq
      rcases List.mem_append.mp hq with hq | hq
      · obtain ⟨kv, hkv, hkey⟩ := hcov q hq
        exact ⟨kv, List.mem_append_left _ hkv, hkey⟩
      · rw [List.mem_singleton] at hq
        subst hq
        exact ⟨(permKey q, q), List.mem_append_right _ (List.mem_singleton_self _), rfl⟩

theorem goodMap_foldl :
    ∀ (ps : List Permissions) (m : List (String × Permissions)) (src : List Permissions),
      goodMap m src → goodMap (ps.foldl permUnionStep m) (src ++ ps) := by
  intro ps
  induction ps with
  | nil => intro m src h; simpa using h
  | cons p ps ih =>
    intro m src h
    have h1 := goodMap_step h p
    have h2 := ih (permUnionStep m p) (src ++ [p]) h1
    simpa [List.append_assoc] using h2

theorem goodMap_foldl_roles :
    ∀ (rs : List (List Permissions)) (m : List (String × Permissions))
      (src : List Permissions), goodMap m src →
      goodMap (rs.foldl (fun acc ps => ps.foldl permUnionStep acc) m) (src ++ rs.flatten) := by
  intro rs
  induction rs with
  | nil => intro m src h; simpa using h
  | cons ps rs ih =>
    intro m src h
    have h1 := goodMap_foldl ps m src h
    have h2 := ih (ps.foldl permUnionStep m) (src ++ ps) h1
    simpa [List.append_assoc] using h2

theorem goodMap_effective (direct : List Permissions) (roles : List (List Permissions)) :
    goodMap ((roles.foldl (fun acc ps => ps.foldl permUnionStep acc)
        (direct.foldl permUnionStep []))) (direct ++ roles.flatten) := by
  have h0 : goodMap [] [] := by
    refine ⟨List.nodup_nil, ?_, ?_⟩ <;> intro p hp <;> exact absurd hp (List.not_mem_nil p)
  have h1 := goodMap_foldl direct [] [] h0
  have h2 := goodMap_foldl_roles roles (direct.foldl permUnionStep []) direct
    (by simpa using h1)
  exact h2

/-- C7 amended: the effective permission set is the union of the direct
permissions and every assigned role's permissions, deduplicated by the Go
map key `fmt.Sprintf("%v-%v-%v", Resources, Actions, Effect)` (`permKey`):
the returned entries have pairwise-distinct keys, each comes from the
input rules, and every input rule's key is represented.  Entries with
equal triples always collapse — but so do entries with distinct triples
whose rendered keys coincide, so the dedup is by rendered key, not
exactly by the triple. -/
theorem effective_permissions_dedup_by_key :
    ∀ (store : Store) (accessKeyID : String) (rec : AccessKeyRec),
      (store.keys.find? (fun r => r.accessKey == accessKeyID) = some rec →
        GetAccessKeyPermissions store accessKeyID
          = .ok (effectivePermissions rec.permissions (rolePermsFor store accessKeyID)))
      ∧ ∀ (direct : List Permissions) (roles : List (List Permissions)),
          ((effectivePermissions direct roles).map permKey).Nodup
          ∧ (∀ p ∈ effectivePermissions direct roles, p ∈ direct ++ roles.flatten)
          ∧ (∀ p ∈ direct ++ roles.flatten,
              ∃ q ∈ effectivePermissions direct roles, permKey q = permKey p) := by
  intro store accessKeyID rec
  constructor
  · intro hfind
    simp [GetAccessKeyPermissions, hfind]
  · intro direct roles
    obtain ⟨hnd, hval, hcov⟩ := goodMap_effective direct roles
    refine ⟨?_, ?_, ?_⟩
    · have hmap : (effectivePermissions direct roles).map permKey
          = ((roles.foldl (fun acc ps => ps.foldl permUnionStep acc)
              (direct.foldl permUnionStep []))).map Prod.fst := by
        simp only [effectivePermissions, List.map_map]
        apply List.map_congr_left
        intro kv hkv
        exact ((hval kv hkv).1).symm
      rw [hmap]
      exact hnd
    · intro p hp
      simp only [effectivePermissions, List.mem_map] at hp
      obtain ⟨kv, hkv, heq⟩ := hp
      rw [← heq]
      exact (hval kv hkv).2
    · intro p hp
      obtain ⟨kv, hkv, hkey⟩ := hcov p hp
      exact ⟨kv.2, List.mem_map_of_mem _ hkv, by rw [← (hval kv hkv).1, hkey]⟩

def permA : Permissions := { resources := ["a b"], actions := ["GET"], effect := "allow" }

def permB : Permissions := { resources := ["a", "b"], actions := ["GET"], effect := "allow" }

def recC7 : AccessKeyRec :=
  { accessKey := "k", secretKey := "s", status := "active", permissions := [permA] }

def storeC7 : Store :=
  { keys := [recC7], roleAssignments := [("k", [permB])], updateLastUsedOk := true }

/-- C7 counterexample: a direct rule with resources `["a b"]` and a role
rule with resources `["a", "b"]` have *unequal* triples but identical
rendered keys (`fmt.Sprintf("%v", ...)` renders both resource slices as
`[a b]`), so they collapse to a single entry — refuting "two entries
collapse to one iff their triples are equal". -/
theorem dedup_by_triple_counterexample :
    permA ≠ permB
      ∧ permKey permA = permKey permB
      ∧ GetAccessKeyPermissions storeC7 "k" = .ok [permB] :=
  ⟨by decide, rfl, rfl⟩

def permW7 : Permissions := { resources := ["a"], actions := ["GET"], effect := "allow" }

theorem effective_permissions_dedup_by_key_witness :
    (∃ q ∈ effectivePermissions [permW7] [[permW7]], permKey q = permKey permW7)
      ∧ (effectivePermissions [permW7] [[permW7]]).length = 1 :=
  ⟨((effective_permissions_dedup_by_key storeC7 "k" recW).2 [permW7] [[permW7]]).2.2
      permW7 (by simp),
    by decide⟩

/-! ## The Request Gate decision (claims C1, C6) -/

/-- Proof artifact: the canonical string `SignRequest` and
`VerifyRequestSignature` agree on, expressed through the request
components only (the unused headers field is cleared). -/
def requestCanonical (sha256B64 : List Nat → String) (method path : String)
    (query : List (String × List String)) (accessKeyID timestamp : String)
    (body : List Nat) : String :=
  GenerateStringToSign sha256B64
    { accessKeyID := accessKeyID, method := method, path := path,
      queryParams := firstValues query, headers := [], timestamp := timestamp,
      content := body }

/-- Proof artifact: the verification stage of the middleware, as a function
of the request components after the gate's own re-signing. -/
def verifyStage (hmacSha256B64 : String → String → String) (sha256B64 : List Nat → String)
    (store : Store) (method path : String) (query : List (String × List String))
    (body : List Nat) (ts : String) : Except String Bool :=
  if ts == "" then .error "missing X-Timestamp header"
  else
    if GenerateSignature hmacSha256B64 "wen"
        (requestCanonical sha256B64 method path query "14789" ts body) == "" then
      .error "missing X-Signature header"
    else
      VerifySignature store hmacSha256B64 "14789"
        (requestCanonical sha256B64 method path query "14789" ts body)
        (GenerateSignature hmacSha256B64 "wen"
          (requestCanonical sha256B64 method path query "14789" ts body))

/-- Proof artifact: the full gate decision as a function of the request
components, with the original headers nowhere in sight. -/
def middlewareDecision (hmacSha256B64 : String → String → String)
    (sha256B64 : List Nat → String) (store : Store) (method path : String)
    (query : List (String × List String)) (body : List Nat) (ts : String) : Nat × String :=
  match verifyStage hmacSha256B64 sha256B64 store method path query body ts with
  | .error _ => (401, "Invalid signature")
  | .ok false => (401, "Invalid signature")
  | .ok true =>
    match ValidateAccessKey store "14789" with
    | .error _ => (401, "Invalid access key")
    | .ok false => (401, "Invalid access key")
    | .ok true =>
      match GetAccessKeyPermissions store "14789" with
      | .error _ => (500, "Error getting permissions")
      | .ok permissions =>
        if !hasPermission permissions method path then (403, "Insufficient permissions")
        else (200, "")

theorem verify_of_gate_signed (hmac : String → String → String) (sha : List Nat → String)
    (store : Store) (req : Request) (ts : String) :
    VerifyRequestSignature store hmac sha
        (SignRequest hmac sha req "14789" "wen" req.body ts) req.body
      = verifyStage hmac sha store req.method req.path req.query req.body ts := by
  have h14 : (("14789" : String) == "") = false := by decide
  simp only [VerifyRequestSignature, verifyStage, signed_headers_accessKeyID,
    signed_headers_timestamp, signed_headers_signature, h14, Bool.false_eq_true, if_false,
    SignRequest_method, SignRequest_path, SignRequest_query, requestCanonical,
    signStringToSign, GenerateStringToSign]

/-- The gate's decision factors through the request components: the
original headers do not influence it (the three transport headers are
overwritten before verification). -/
theorem gateStatus_middleware (hmac : String → String → String) (sha : List Nat → String)
    (store : Store) (req : Request) (ts : String) :
    gateStatus (CreateMiddleware hmac sha store req ts)
      = middlewareDecision hmac sha store req.method req.path req.query req.body ts := by
  simp only [CreateMiddleware, middlewareDecision, verify_of_gate_signed,
    signed_headers_accessKeyID, SignRequest_method, SignRequest_path]
  cases verifyStage hmac sha store req.method req.path req.query req.body ts with
  | error e => rfl
  | ok b =>
    cases b with
    | false => rfl
    | true =>
      cases ValidateAccessKey store "14789" with
      | error e => rfl
      | ok b2 =>
        cases b2 with
        | false => rfl
        | true =>
          cases GetAccessKeyPermissions store "14789" with
          | error e => rfl
          | ok perms =>
            show gateStatus (if !hasPermission perms req.method req.path then
                  GateOutcome.rejected 403 "Insufficient permissions"
                else GateOutcome.forwarded (SignRequest hmac sha req "14789" "wen" req.body ts))
              = if !hasPermission perms req.method req.path then
                  (403, "Insufficient permissions")
                else (200, "")
            cases hasPermission perms req.method req.path <;> rfl

/-- C1: the middleware re-signs every inbound request with the fixed
credential `"14789"` / secret `"wen"`, overwriting the presented
`X-Access-Key-ID`, `X-Timestamp` and `X-Signature` before verification, so
two requests that agree on method, path, query and body — and on every
header other than those three — receive the same accept/reject decision,
whatever credentials, timestamps or signatures they presented. -/
theorem gate_decision_ignores_presented_credentials :
    ∀ (hmacSha256B64 : String → String → String) (sha256B64 : List Nat → String)
      (store : Store) (req₁ req₂ : Request) (ts : String),
      req₁.method = req₂.method → req₁.path = req₂.path → req₁.query = req₂.query →
      req₁.body = req₂.body →
      (∀ k, k ≠ "X-Access-Key-ID" → k ≠ "X-Timestamp" → k ≠ "X-Signature" →
        headerGet req₁.headers k = headerGet req₂.headers k) →
      gateStatus (CreateMiddleware hmacSha256B64 sha256B64 store req₁ ts)
        = gateStatus (CreateMiddleware hmacSha256B64 sha256B64 store req₂ ts) := by
  intro hmac sha store req₁ req₂ ts hm hp hq hb _
  rw [gateStatus_middleware, gateStatus_middleware, hm, hp, hq, hb]

def req1W : Request :=
  { method := "GET", path := "/p", query := [],
    headers := [("X-Signature", "zzz"), ("Other", "o")], body := [] }

def req2W : Request :=
  { method := "GET", path := "/p", query := [],
    headers := [("X-Signature", "www"), ("Other", "o")], body := [] }

theorem gate_decision_ignores_presented_credentials_witness :
    gateStatus (CreateMiddleware hmacW shaW storeW req1W "1")
      = gateStatus (CreateMiddleware hmacW shaW storeW req2W "1") :=
  gate_decision_ignores_presented_credentials hmacW shaW storeW req1W req2W "1"
    rfl rfl rfl rfl (by
      intro k _ _ h3
      have hs : ¬((("X-Signature", "zzz") : String × String).1 == k) = true := by
        simp only [beq_iff_eq]
        exact fun h => h3 h.symm
      show headerGet [("X-Signature", "zzz"), ("Other", "o")] k
        = headerGet [("X-Signature", "www"), ("Other", "o")] k
      unfold headerGet
      rw [@List.find?_cons_of_neg _ (fun kv => kv.1 == k) ("X-Signature", "zzz") _ hs,
        @List.find?_cons_of_neg _ (fun kv => kv.1 == k) ("X-Signature", "www") _ hs])

theorem signed_headers_other (hmac : String → String → String) (sha : List Nat → String)
    (req : Request) (id secret : String) (content : List Nat) (ts : String) (k : String)
    (h1 : k ≠ "X-Access-Key-ID") (h2 : k ≠ "X-Timestamp") (h3 : k ≠ "X-Signature") :
    headerGet (SignRequest hmac sha req id secret content ts).headers k
      = headerGet req.headers k := by
  show headerGet (headerSet (headerSet (headerSet req.headers "X-Access-Key-ID" id)
    "X-Timestamp" ts) "X-Signature"
      (GenerateSignature hmac secret (signStringToSign sha req id ts content))) k
    = headerGet req.headers k
  rw [headerGet_set_other _ _ _ _ h3, headerGet_set_other _ _ _ _ h2,
    headerGet_set_other _ _ _ _ h1]

/-- C6 amended: the request the gate forwards on authorization is the
inbound request with method, path, query and body unchanged and with
exactly the three signing headers overwritten (`X-Access-Key-ID` becomes
the fixed `"14789"`); every other header keeps the value the gate
received. -/
theorem forwarded_request_frame :
    ∀ (hmacSha256B64 : String → String → String) (sha256B64 : List Nat → String)
      (store : Store) (req : Request) (ts : String) (fwd : Request),
      CreateMiddleware hmacSha256B64 sha256B64 store req ts = .forwarded fwd →
      fwd.method = req.method ∧ fwd.path = req.path ∧ fwd.query = req.query
        ∧ fwd.body = req.body
        ∧ headerGet fwd.headers "X-Access-Key-ID" = "14789"
        ∧ (∀ k, k ≠ "X-Access-Key-ID" → k ≠ "X-Timestamp" → k ≠ "X-Signature" →
            headerGet fwd.headers k = headerGet req.headers k) := by
  intro hmac sha store req ts fwd h
  have hfwd : fwd = SignRequest hmac sha req "14789" "wen" req.body ts := by
    simp only [CreateMiddleware] at h
    split at h <;> try exact GateOutcome.noConfusion h
    split at h <;> try exact GateOutcome.noConfusion h
    split at h <;> try exact GateOutcome.noConfusion h
    split at h <;> try exact GateOutcome.noConfusion h
    injection h with h'
    exact h'.symm
  subst hfwd
  exact ⟨SignRequest_method hmac sha req "14789" "wen" req.body ts,
    SignRequest_path hmac sha req "14789" "wen" req.body ts,
    SignRequest_query hmac sha req "14789" "wen" req.body ts,
    SignRequest_body hmac sha req "14789" "wen" req.body ts,
    signed_headers_accessKeyID hmac sha req "14789" "wen" req.body ts,
    fun k h1 h2 h3 => signed_headers_other hmac sha req "14789" "wen" req.body ts k h1 h2 h3⟩

def recC6 : AccessKeyRec :=
  { accessKey := "14789", secretKey := "wen", status := "active",
    permissions := [{ resources := ["/*"], actions := ["*"], effect := "allow" }] }

def storeC6 : Store :=
  { keys := [recC6], roleAssignments := [], updateLastUsedOk := true }

def reqC6 : Request :=
  { method := "GET", path := "/x", query := [],
    headers := [("X-Access-Key-ID", "caller")], body := [] }

/-- C6 counterexample: an authorized request is *not* forwarded unmodified
— the caller presented `X-Access-Key-ID: caller`, but the handler observes
`X-Access-Key-ID: 14789`, the value the gate wrote while re-signing. -/
theorem forwarded_request_modified_counterexample :
    forwardedHeaderOf (CreateMiddleware hmacW shaW storeC6 reqC6 "1") "X-Access-Key-ID"
        = some "14789"
      ∧ headerGet reqC6.headers "X-Access-Key-ID" = "caller"
      ∧ ("14789" : String) ≠ "caller" :=
  ⟨by decide, rfl, by decide⟩

theorem forwarded_request_frame_witness :
    headerGet (SignRequest hmacW shaW reqC6 "14789" "wen" [] "1").headers "X-Access-Key-ID"
        = "14789"
      ∧ headerGet (SignRequest hmacW shaW reqC6 "14789" "wen" [] "1").headers "Other"
        = headerGet reqC6.headers "Other" :=
  ⟨(forwarded_request_frame hmacW shaW storeC6 reqC6 "1"
      (SignRequest hmacW shaW reqC6 "14789" "wen" [] "1") (by decide)).2.2.2.2.1,
    (forwarded_request_frame hmacW shaW storeC6 reqC6 "1"
      (SignRequest hmacW shaW reqC6 "14789" "wen" [] "1") (by decide)).2.2.2.2.2
      "Other" (by decide) (by decide) (by decide)⟩

end AccessKey
